import Mathlib

/-!
Shallow embedding of the Prem Enterprises wholesale backend (`src/app.py`).

The persistent store (SQLite via SQLAlchemy) is modelled as explicit lists of
rows; each Flask endpoint becomes a pure function `Store → request → Store × Except ApiErr α`
returning the post-state together with the JSON result (`.ok`) or the error
response (`.error`, carrying the HTTP status and message the endpoint returns).
An endpoint that answers an error before any `db.session` mutation returns the
input store unchanged, exactly as the code does (it never mutates before its
final commit).

Monetary values (Python floats fed from decimal user input) are modelled as
`Rat`; integer columns as `Int`; dates as an abstract `Nat` clock (`Store.now`).
Raw-request fields that Python parses with `int(...)` / `float(...)` are
modelled as `Option`: `none` is a missing or unparseable field.
-/

structure Product where
  id : Int
  name : String
  cp : Rat
  sp : Rat
  mrp : Rat
  stock : Int
deriving Repr, DecidableEq

structure Retailer where
  id : Int
  shop_name : String
  address : String
  phone : String
deriving Repr, DecidableEq

structure Order where
  id : Int
  retailer_id : Int
  date : Nat
  grand_total : Rat
  total_items : Int
  status : String
deriving Repr, DecidableEq

structure OrderItem where
  order_id : Int
  product_id : Int
  product_name : String
  cp : Rat
  sp : Rat
  mrp : Rat
  qty : Int
  item_total : Rat
deriving Repr, DecidableEq

structure Store where
  products : List Product
  retailers : List Retailer
  orders : List Order
  orderItems : List OrderItem
  nextProductId : Int
  nextOrderId : Int
  now : Nat
deriving Repr, DecidableEq

/-- HTTP error response: status code and message, as returned by the Flask
handlers (`400` validation, `404` not found, `409` conflict). -/
structure ApiErr where
  status : Nat
  msg : String
deriving Repr, DecidableEq

/-- `Product.query.get(pid)`: look a product up by primary key. -/
def findProduct (ps : List Product) (pid : Int) : Option Product :=
  ps.find? (fun p => p.id == pid)

/-- `Order.query.get(oid)`. -/
def findOrder (os : List Order) (oid : Int) : Option Order :=
  os.find? (fun o => o.id == oid)

/-- `Retailer.query.get(rid)`. -/
def findRetailer (rs : List Retailer) (rid : Int) : Option Retailer :=
  rs.find? (fun r => r.id == rid)

/-- `OrderItem.query.filter_by(order_id=oid).all()`. -/
def itemsOfOrder (its : List OrderItem) (oid : Int) : List OrderItem :=
  its.filter (fun it => it.order_id == oid)

/-- Whether some product row has primary key `m` (the truthiness test
`if p:` after `Product.query.get`). -/
def hasId (ps : List Product) (m : Int) : Bool :=
  ps.any (fun p => p.id == m)

/-- Replace every product row whose id is `pid` by `p'` (the ORM writes
`product.cp = ...; product.stock = ...` back to the row). -/
def setProduct (ps : List Product) (pid : Int) (p' : Product) : List Product :=
  ps.map (fun q => if q.id == pid then p' else q)

/-- Write `status = st` on the order row with id `oid`
(`order.status = "deleted"` / `order.status = "delivered"`). -/
def setStatus (os : List Order) (oid : Int) (st : String) : List Order :=
  os.map (fun o2 => if o2.id == oid then { o2 with status := st } else o2)

/-! ### `api_add_product` (app.py lines 102-118) -/

/-- Raw body of `POST /api/add_product`. `name = ""` stands for a missing or
empty name (Python's falsy check `not name`); a `none` numeric field is an
unparseable value (the `except` branch). -/
structure AddProductReq where
  name : String
  cp : Option Rat
  sp : Option Rat
  mrp : Option Rat
  stock : Option Int
deriving Repr

def addProduct (s : Store) (req : AddProductReq) : Store × Except ApiErr Int :=
  match req.cp, req.sp, req.mrp, req.stock with
  | some cp, some sp, some mrp, some stock =>
    if req.name = "" then
      (s, Except.error ⟨400, "Name required"⟩)
    else
      let p : Product := ⟨s.nextProductId, req.name, cp, sp, mrp, stock⟩
      ({ s with products := s.products ++ [p],
                nextProductId := s.nextProductId + 1 },
       Except.ok p.id)
  | _, _, _, _ => (s, Except.error ⟨400, "Invalid numeric values"⟩)

/-! ### `api_update_product_stock` (app.py lines 122-151) -/

/-- Raw body of `POST /api/update_product_stock`. A `none` field is a missing
or unparseable value (the `except (TypeError, ValueError)` branch); note the
code applies `stock_to_add = int(data.get('stock_to_add', 0))` so a *missing*
`stock_to_add` is encoded as `some 0`. -/
structure RestockReq where
  id : Option Int
  stock_to_add : Option Int
  cp : Option Rat
  sp : Option Rat
  mrp : Option Rat
deriving Repr

def updateProductStock (s : Store) (req : RestockReq) : Store × Except ApiErr Int :=
  match req.id, req.stock_to_add, req.cp, req.sp, req.mrp with
  | some pid, some sta, some cp, some sp, some mrp =>
    match findProduct s.products pid with
    | none => (s, Except.error ⟨404, "Product not found"⟩)
    | some p =>
      let newStock := if 0 < sta then p.stock + sta else p.stock
      let p' : Product := { p with cp := cp, sp := sp, mrp := mrp, stock := newStock }
      ({ s with products := setProduct s.products pid p' }, Except.ok newStock)
  | _, _, _, _, _ => (s, Except.error ⟨400, "Invalid ID, stock, or price data provided."⟩)

/-! ### `api_place_order` (app.py lines 169-216) -/

/-- One element of the `items` payload. `product_id = none`: missing or
non-integer (`int(it.get('product_id'))` raises); `qty = none`: present but
non-integer (a *missing* qty defaults to `0`, encoded `some 0`). -/
structure RawItem where
  product_id : Option Int
  qty : Option Int
deriving Repr

/-- Raw body of `POST /api/place_order`. `items = none`: body missing the
`items` key or it is not a list; `retailer_id = none`: missing, blank, or not
parseable as an integer. -/
structure PlaceOrderReq where
  retailer_id : Option Int
  items : Option (List RawItem)
deriving Repr

/-- `prods[pid] = (p, qty)`: Python dict insertion keyed by product id —
an existing key keeps its position and gets the new value (last wins),
a new key is appended. -/
def upsertProd (l : List (Int × Product × Int)) (pid : Int) (p : Product) (qty : Int) :
    List (Int × Product × Int) :=
  if l.any (fun e => e.1 == pid) then
    l.map (fun e => if e.1 == pid then (pid, p, qty) else e)
  else
    l ++ [(pid, p, qty)]

/-- The validation loop of `api_place_order` (lines 190-205): walk the items
payload accumulating `grand_total`, `total_items` and the hold-map `prods`,
failing fast on the first bad item.  No store mutation happens here, matching
the code (mutations start only at line 207). -/
def checkItems (s : Store) : List RawItem → Rat → Int → List (Int × Product × Int) →
    Except ApiErr (Rat × Int × List (Int × Product × Int))
  | [], gt, ti, prods => Except.ok (gt, ti, prods)
  | it :: rest, gt, ti, prods =>
    match it.product_id, it.qty with
    | some pid, some qty =>
      if qty ≤ 0 then Except.error ⟨400, "Invalid qty"⟩
      else
        match findProduct s.products pid with
        | none => Except.error ⟨404, "Product not found"⟩
        | some p =>
          if p.stock < qty then Except.error ⟨409, "Insufficient stock"⟩
          else checkItems s rest (gt + p.sp * (qty : Rat)) (ti + qty) (upsertProd prods pid p qty)
    | _, _ => Except.error ⟨400, "Invalid item data"⟩

/-- `p.stock -= qty` for the product with id `pid`. -/
def decStock (ps : List Product) (pid qty : Int) : List Product :=
  ps.map (fun p => if p.id == pid then { p with stock := p.stock - qty } else p)

/-- `p.stock += qty` for the product with id `pid`. -/
def incStock (ps : List Product) (pid qty : Int) : List Product :=
  ps.map (fun p => if p.id == pid then { p with stock := p.stock + qty } else p)

/-- The OrderItem row built at line 212-213 for one hold-map entry. -/
def mkOrderItem (oid : Int) (e : Int × Product × Int) : OrderItem :=
  { order_id := oid, product_id := e.2.1.id, product_name := e.2.1.name,
    cp := e.2.1.cp, sp := e.2.1.sp, mrp := e.2.1.mrp, qty := e.2.2,
    item_total := e.2.1.sp * (e.2.2 : Rat) }

def placeOrder (s : Store) (req : PlaceOrderReq) : Store × Except ApiErr Int :=
  match req.items with
  | none => (s, Except.error ⟨400, "Items required"⟩)
  | some items =>
    match req.retailer_id with
    | none => (s, Except.error ⟨400, "Retailer selection is required."⟩)
    | some rid =>
      match checkItems s items 0 0 [] with
      | Except.error e => (s, Except.error e)
      | Except.ok (gt, ti, prods) =>
        let oid := s.nextOrderId
        let order : Order := ⟨oid, rid, s.now, gt, ti, "pending"⟩
        let products' := prods.foldl (fun ps e => decStock ps e.1 e.2.2) s.products
        ({ s with products := products',
                  orders := s.orders ++ [order],
                  orderItems := s.orderItems ++ prods.map (mkOrderItem oid),
                  nextOrderId := oid + 1 },
         Except.ok oid)

/-! ### `delete_order` (app.py lines 247-262) -/

def deleteOrder (s : Store) (oid : Int) : Store × Except ApiErr Unit :=
  match findOrder s.orders oid with
  | none => (s, Except.error ⟨404, "Order not found"⟩)
  | some o =>
    if o.status = "deleted" then
      (s, Except.error ⟨400, "Already deleted"⟩)
    else
      let items := itemsOfOrder s.orderItems oid
      let products' := items.foldl
        (fun ps it => if hasId ps it.product_id then incStock ps it.product_id it.qty else ps)
        s.products
      ({ s with products := products', orders := setStatus s.orders oid "deleted" },
       Except.ok ())

/-! ### `deliver_order` (app.py lines 265-274) -/

def deliverOrder (s : Store) (oid : Int) : Store × Except ApiErr Unit :=
  match findOrder s.orders oid with
  | none => (s, Except.error ⟨404, "Order not found"⟩)
  | some o =>
    if o.status = "deleted" then
      (s, Except.error ⟨400, "Order already deleted"⟩)
    else
      ({ s with orders := setStatus s.orders oid "delivered" }, Except.ok ())

/-! ### `api_orders` (lines 81-99) and `export_csv` (lines 277-292) -/

/-- `Order.date.desc()`: the sort relation, newest first. -/
def dateGe (a b : Order) : Prop := b.date ≤ a.date

instance : DecidableRel dateGe := fun a b => Nat.decLe b.date a.date

instance : IsTotal Order dateGe :=
  ⟨fun a b => Nat.le_total b.date a.date⟩

instance : IsTrans Order dateGe :=
  ⟨fun _ _ _ hab hbc => le_trans hbc hab⟩

/-- `Order.query.filter(Order.status != 'deleted').order_by(Order.date.desc())`. -/
def activeOrders (s : Store) : List Order :=
  (s.orders.filter (fun o => o.status != "deleted")).insertionSort dateGe

/-- One CSV row of `/export` (line 287). -/
structure CsvRow where
  order_id : Int
  date : Nat
  retailer : String
  product : String
  qty : Int
  sp : Rat
  cp : Rat
  item_total : Rat
  grand_total : Rat
  status : String
deriving Repr, DecidableEq

def csvRowOf (s : Store) (o : Order) (it : OrderItem) : CsvRow :=
  { order_id := o.id, date := o.date,
    retailer := match findRetailer s.retailers o.retailer_id with
                | some r => r.shop_name
                | none => "",
    product := it.product_name, qty := it.qty, sp := it.sp, cp := it.cp,
    item_total := it.item_total, grand_total := o.grand_total, status := o.status }

/-- The data rows of `/export`: all orders (no status filter), date
descending, one row per order item. -/
def exportRows (s : Store) : List CsvRow :=
  (s.orders.insertionSort dateGe).flatMap
    (fun o => (itemsOfOrder s.orderItems o.id).map (csvRowOf s o))

/-! ### Derived quantities used to state the invariants -/

/-- Sum of `item_total` over the OrderItems of order `oid`. -/
def sumItemTotals (s : Store) (oid : Int) : Rat :=
  ((itemsOfOrder s.orderItems oid).map OrderItem.item_total).sum

/-- Sum of `qty` over the OrderItems of order `oid`. -/
def sumItemQtys (s : Store) (oid : Int) : Int :=
  ((itemsOfOrder s.orderItems oid).map OrderItem.qty).sum

/-- Product ids that actually parse in an items payload. -/
def pidsOf (l : List RawItem) : List Int := l.filterMap RawItem.product_id

def entryKeys (l : List (Int × Product × Int)) : List Int := l.map (fun e => e.1)

def entrySumSp (l : List (Int × Product × Int)) : Rat :=
  (l.map (fun e => e.2.1.sp * (e.2.2 : Rat))).sum

def entrySumQty (l : List (Int × Product × Int)) : Int :=
  (l.map (fun e => e.2.2)).sum

/-! ## Concrete fixtures used by counterexamples and witnesses -/

def prodA : Product := ⟨1, "A", 0, 1, 0, 10⟩

def retR : Retailer := ⟨1, "R", "", ""⟩

def store1 : Store := ⟨[prodA], [retR], [], [], 2, 1, 5⟩

def reqNoItems : PlaceOrderReq := ⟨some 1, none⟩

def reqOne : PlaceOrderReq := ⟨some 1, some [⟨some 1, some 2⟩]⟩

def reqDup : PlaceOrderReq := ⟨some 1, some [⟨some 1, some 2⟩, ⟨some 1, some 3⟩]⟩

def reqEmptyItems : PlaceOrderReq := ⟨some 1, some []⟩

def orderDeleted : Order := ⟨1, 1, 5, 3, 3, "deleted"⟩

def itemOfDeleted : OrderItem := ⟨1, 1, "A", 0, 1, 0, 3, 3⟩

def storeDel : Store := ⟨[prodA], [retR], [orderDeleted], [itemOfDeleted], 2, 2, 6⟩

def orderDelivered : Order := ⟨1, 1, 5, 3, 3, "delivered"⟩

def storeDeliv : Store := ⟨[prodA], [retR], [orderDelivered], [], 2, 2, 6⟩

def restockReq1 : RestockReq := ⟨some 1, some 5, some 2, some 3, some 4⟩

/-! ## Generic helper lemmas -/

theorem findProduct_eq_some {ps : List Product} {pid : Int} {p : Product}
    (h : findProduct ps pid = some p) : p ∈ ps ∧ p.id = pid := by
  unfold findProduct at h
  refine ⟨List.mem_of_find?_eq_some h, ?_⟩
  have hb := List.find?_some h
  simpa using hb

/-- Every error return of `api_place_order` happens before any `db.session`
mutation, so the store is unchanged. -/
theorem placeOrder_error_store_eq (s : Store) (req : PlaceOrderReq) (e : ApiErr)
    (h : (placeOrder s req).2 = Except.error e) : (placeOrder s req).1 = s := by
  cases hi : req.items with
  | none => simp [placeOrder, hi]
  | some items =>
    cases hr : req.retailer_id with
    | none => simp [placeOrder, hi, hr]
    | some rid =>
      cases hc : checkItems s items 0 0 [] with
      | error e2 => simp [placeOrder, hi, hr, hc]
      | ok v =>
        obtain ⟨gt, ti, prods⟩ := v
        simp [placeOrder, hi, hr, hc] at h

theorem findProduct_setProduct {ps : List Product} {pid : Int} {p p' : Product}
    (h : findProduct ps pid = some p) (hid : p'.id = pid) :
    findProduct (setProduct ps pid p') pid = some p' := by
  unfold findProduct setProduct at *
  induction ps with
  | nil => simp at h
  | cons q rest ih =>
    by_cases hq : q.id = pid
    · rw [List.map_cons, if_pos (show (q.id == pid) = true by simpa using hq)]
      exact List.find?_cons_of_pos _ (by simpa using hid)
    · rw [List.find?_cons_of_neg _ (by simpa using hq)] at h
      rw [List.map_cons, if_neg (show ¬(q.id == pid) = true by simpa using hq)]
      rw [List.find?_cons_of_neg _ (by simpa using hq)]
      exact ih h

/-! ## C3 -/

/-- C3: whenever order placement fails for any reason, the store is exactly as
it was before the request — no stock change, no Order, no OrderItem. -/
theorem place_order_failure_is_all_or_nothing (s : Store) (req : PlaceOrderReq) (e : ApiErr)
    (h : (placeOrder s req).2 = Except.error e) : (placeOrder s req).1 = s :=
  placeOrder_error_store_eq s req e h

/-- Witness for C3: a request with no items list fails and leaves `store1` intact. -/
theorem place_order_failure_witness :
    (placeOrder store1 reqNoItems).2 = Except.error ⟨400, "Items required"⟩ ∧
    (placeOrder store1 reqNoItems).1 = store1 :=
  ⟨rfl, place_order_failure_is_all_or_nothing store1 reqNoItems ⟨400, "Items required"⟩ rfl⟩

/-! ## C7 -/

/-- C7 counterexample: deleting an already-deleted order answers HTTP 400, not
the 409 conflict status this code uses for conflicts (insufficient stock), so
"fails with a conflict error" is false as stated; the store is untouched. -/
theorem delete_deleted_is_400_not_conflict :
    deleteOrder storeDel 1 = (storeDel, Except.error ⟨400, "Already deleted"⟩) ∧
    (ApiErr.mk 400 "Already deleted").status ≠ 409 :=
  ⟨rfl, by decide⟩

/-- C7 (amended): deleting an order whose status is already "deleted" fails
with the 400 "Already deleted" error and leaves the whole store — in
particular every product's stock and the order itself — unchanged, so stock is
never restored twice. -/
theorem delete_already_deleted_rejected (s : Store) (oid : Int) (o : Order)
    (hfind : findOrder s.orders oid = some o) (hdel : o.status = "deleted") :
    deleteOrder s oid = (s, Except.error ⟨400, "Already deleted"⟩) := by
  simp [deleteOrder, hfind, hdel]

/-- Witness for C7. -/
theorem delete_already_deleted_witness :
    deleteOrder storeDel 1 = (storeDel, Except.error ⟨400, "Already deleted"⟩) :=
  delete_already_deleted_rejected storeDel 1 orderDeleted rfl rfl

/-! ## C10 -/

/-- C10: `deliver_order` fails only on a missing order id (404) or a "deleted"
status (400); in every other case — including an order already "delivered" —
it succeeds and only rewrites the order's status to "delivered". -/
theorem deliver_order_spec (s : Store) (oid : Int) :
    (findOrder s.orders oid = none →
      deliverOrder s oid = (s, Except.error ⟨404, "Order not found"⟩)) ∧
    (∀ o, findOrder s.orders oid = some o →
      (o.status = "deleted" →
        deliverOrder s oid = (s, Except.error ⟨400, "Order already deleted"⟩)) ∧
      (o.status ≠ "deleted" →
        deliverOrder s oid =
          ({ s with orders := setStatus s.orders oid "delivered" }, Except.ok ()))) := by
  refine ⟨fun h => by simp [deliverOrder, h], fun o ho => ⟨fun hd => ?_, fun hnd => ?_⟩⟩
  · simp [deliverOrder, ho, hd]
  · simp [deliverOrder, ho, hnd]

/-- Witness for C10: delivering an already-delivered order succeeds. -/
theorem deliver_delivered_witness :
    deliverOrder storeDeliv 1 =
      ({ storeDeliv with orders := setStatus storeDeliv.orders 1 "delivered" }, Except.ok ()) :=
  ((deliver_order_spec storeDeliv 1).2 orderDelivered rfl).2 (by decide)

/-! ## C8 -/

/-- The product row as `api_update_product_stock` rewrites it: prices set
unconditionally, stock increased only when `stock_to_add > 0`. -/
def restockedProduct (p : Product) (cp sp mrp : Rat) (sta : Int) : Product :=
  { p with cp := cp, sp := sp, mrp := mrp,
           stock := if 0 < sta then p.stock + sta else p.stock }

/-- C8: a restock request on an existing product sets cp/sp/mrp to the
supplied values unconditionally and adds `stock_to_add` to the stock exactly
when it is positive; a zero or negative `stock_to_add` leaves the stock
unchanged while the price fields still update. -/
theorem restock_spec (s : Store) (req : RestockReq) (pid sta : Int) (cp sp mrp : Rat)
    (p : Product)
    (h1 : req.id = some pid) (h2 : req.stock_to_add = some sta) (h3 : req.cp = some cp)
    (h4 : req.sp = some sp) (h5 : req.mrp = some mrp)
    (hp : findProduct s.products pid = some p) :
    updateProductStock s req =
      ({ s with products := setProduct s.products pid (restockedProduct p cp sp mrp sta) },
       Except.ok (if 0 < sta then p.stock + sta else p.stock)) ∧
    findProduct (updateProductStock s req).1.products pid =
      some (restockedProduct p cp sp mrp sta) := by
  have heq : updateProductStock s req =
      ({ s with products := setProduct s.products pid (restockedProduct p cp sp mrp sta) },
       Except.ok (if 0 < sta then p.stock + sta else p.stock)) := by
    simp [updateProductStock, h1, h2, h3, h4, h5, hp, restockedProduct]
  refine ⟨heq, ?_⟩
  rw [heq]
  exact findProduct_setProduct hp (findProduct_eq_some hp).2

/-- Witness for C8. -/
theorem restock_witness :
    findProduct (updateProductStock store1 restockReq1).1.products 1 =
      some (restockedProduct prodA 2 3 4 5) :=
  (restock_spec store1 restockReq1 1 5 2 3 4 prodA rfl rfl rfl rfl rfl rfl).2

/-! ## C5 -/

/-- C5 counterexample: a request whose items list is *empty* is not rejected:
line 172 only checks that `items` is present and is a list, so the placement
succeeds and creates an Order (with zero totals and no items). -/
theorem empty_items_accepted :
    (placeOrder store1 reqEmptyItems).2 = Except.ok 1 ∧
    (placeOrder store1 reqEmptyItems).1.orders = [⟨1, 1, 5, 0, 0, "pending"⟩] ∧
    (placeOrder store1 reqEmptyItems).1.orderItems = [] :=
  ⟨rfl, rfl, rfl⟩

/-- C5 (amended): a request whose items key is missing (or not a list) fails
with the 400 "Items required" error and creates nothing; a request with an
*empty* items list is accepted (given a parseable retailer id) and creates an
order with grand_total 0, total_items 0 and no OrderItems. -/
theorem place_order_items_required (s : Store) (req : PlaceOrderReq) :
    (req.items = none → placeOrder s req = (s, Except.error ⟨400, "Items required"⟩)) ∧
    (∀ rid, req.items = some [] → req.retailer_id = some rid →
      (placeOrder s req).2 = Except.ok s.nextOrderId ∧
      (placeOrder s req).1.orders =
        s.orders ++ [⟨s.nextOrderId, rid, s.now, 0, 0, "pending"⟩] ∧
      (placeOrder s req).1.orderItems = s.orderItems ∧
      (placeOrder s req).1.products = s.products) := by
  constructor
  · intro h
    simp [placeOrder, h]
  · intro rid h1 h2
    refine ⟨?_, ?_, ?_, ?_⟩ <;> simp [placeOrder, h1, h2, checkItems]

/-- Witness for C5. -/
theorem place_order_items_required_witness :
    placeOrder store1 reqNoItems = (store1, Except.error ⟨400, "Items required"⟩) ∧
    (placeOrder store1 reqEmptyItems).2 = Except.ok store1.nextOrderId ∧
    (placeOrder store1 reqEmptyItems).1.orderItems = store1.orderItems :=
  ⟨(place_order_items_required store1 reqNoItems).1 rfl,
   ((place_order_items_required store1 reqEmptyItems).2 1 rfl rfl).1,
   ((place_order_items_required store1 reqEmptyItems).2 1 rfl rfl).2.2.1⟩

/-! ## C6 -/

def storeNoRetailers : Store := ⟨[prodA], [], [], [], 2, 1, 5⟩

def reqGhostRetailer : PlaceOrderReq := ⟨some 7, some [⟨some 1, some 2⟩]⟩

def reqNoRetailer : PlaceOrderReq := ⟨none, some [⟨some 1, some 2⟩]⟩

/-- C6 counterexample: retailer id 7 resolves to no Retailer row, yet the
placement succeeds and creates an order — the code never queries the Retailer
table (lines 176-183 only check presence and integer parse). -/
theorem ghost_retailer_accepted :
    findRetailer storeNoRetailers.retailers 7 = none ∧
    (placeOrder storeNoRetailers reqGhostRetailer).2 = Except.ok 1 ∧
    (placeOrder storeNoRetailers reqGhostRetailer).1.orders.length = 1 :=
  ⟨rfl, rfl, rfl⟩

/-- C6 (amended): placement fails (400, nothing created) when the retailer
reference is missing, blank or non-integer; any integer retailer id is
accepted with no existence check, and a successful placement creates an order
carrying exactly that id. -/
theorem place_order_retailer_policy (s : Store) (req : PlaceOrderReq) :
    (∀ items, req.items = some items → req.retailer_id = none →
      placeOrder s req = (s, Except.error ⟨400, "Retailer selection is required."⟩)) ∧
    (∀ rid oid s', req.retailer_id = some rid → placeOrder s req = (s', Except.ok oid) →
      ∃ o ∈ s'.orders, o.id = oid ∧ o.retailer_id = rid) := by
  constructor
  · intro items h1 h2
    simp [placeOrder, h1, h2]
  · intro rid oid s' hr hok
    cases hi : req.items with
    | none => simp [placeOrder, hi] at hok
    | some items =>
      cases hc : checkItems s items 0 0 [] with
      | error e => simp [placeOrder, hi, hr, hc] at hok
      | ok v =>
        obtain ⟨gt, ti, prods⟩ := v
        simp only [placeOrder, hi, hr, hc, Prod.mk.injEq, Except.ok.injEq] at hok
        obtain ⟨h1, h2⟩ := hok
        refine ⟨⟨s.nextOrderId, rid, s.now, gt, ti, "pending"⟩, ?_, by simp [← h2], rfl⟩
        rw [← h1]
        simp

/-- Witness for C6. -/
theorem place_order_retailer_policy_witness :
    placeOrder store1 reqNoRetailer =
      (store1, Except.error ⟨400, "Retailer selection is required."⟩) :=
  (place_order_retailer_policy store1 reqNoRetailer).1 [⟨some 1, some 2⟩] rfl rfl

/-! ## C2 counterexample -/

def emptyStore : Store := ⟨[], [], [], [], 1, 1, 0⟩

def negStockReq : AddProductReq := ⟨"X", some 0, some 0, some 0, some (-5)⟩

/-- C2 counterexample: `api_add_product` performs no nonnegativity check on the
submitted stock, so a request carrying stock -5 creates a product whose stock
is negative. -/
theorem add_product_negative_stock :
    (addProduct emptyStore negStockReq).2 = Except.ok 1 ∧
    (addProduct emptyStore negStockReq).1.products = [⟨1, "X", 0, 0, 0, -5⟩] ∧
    ((-5 : Int) < 0) :=
  ⟨rfl, rfl, by decide⟩

/-! ## Hold-map (`prods` dict) lemmas -/

/-- Invariant of every hold-map entry `(pid, p, qty)` established by the
validation loop: `p` is the current row for `pid`, the quantity is positive
and within the current stock. -/
def ValidEntry (s : Store) (e : Int × Product × Int) : Prop :=
  findProduct s.products e.1 = some e.2.1 ∧ 0 < e.2.2 ∧ e.2.2 ≤ e.2.1.stock

theorem mem_upsertProd {l : List (Int × Product × Int)} {k : Int} {p : Product} {q : Int}
    {e : Int × Product × Int} (he : e ∈ upsertProd l k p q) : e ∈ l ∨ e = (k, p, q) := by
  unfold upsertProd at he
  split at he
  · rcases List.mem_map.1 he with ⟨e', he', hee⟩
    by_cases h : e'.1 = k
    · right
      rw [← hee]
      simp [h]
    · left
      rw [← hee]
      simpa [h] using he'
  · rcases List.mem_append.1 he with h | h
    · exact Or.inl h
    · right
      simpa using h

theorem any_key_iff (l : List (Int × Product × Int)) (k : Int) :
    l.any (fun e => e.1 == k) = true ↔ k ∈ entryKeys l := by
  unfold entryKeys
  rw [List.any_eq_true]
  constructor
  · rintro ⟨e, he, hb⟩
    have he1 : e.1 = k := by simpa using hb
    rw [← he1]
    exact List.mem_map_of_mem _ he
  · intro hk
    rcases List.mem_map.1 hk with ⟨e, he, hek⟩
    exact ⟨e, he, by simpa using hek⟩

theorem entryKeys_upsert_of_mem {l : List (Int × Product × Int)} {k : Int} (p : Product) (q : Int)
    (h : k ∈ entryKeys l) : entryKeys (upsertProd l k p q) = entryKeys l := by
  unfold upsertProd
  rw [if_pos ((any_key_iff l k).2 h)]
  unfold entryKeys
  rw [List.map_map]
  apply List.map_congr_left
  intro e _
  by_cases he : e.1 = k <;> simp [he]

theorem entryKeys_upsert_of_not_mem {l : List (Int × Product × Int)} {k : Int}
    (p : Product) (q : Int) (h : k ∉ entryKeys l) :
    entryKeys (upsertProd l k p q) = entryKeys l ++ [k] := by
  unfold upsertProd
  rw [if_neg (by simpa using fun hc => h ((any_key_iff l k).1 hc))]
  unfold entryKeys
  rw [List.map_append]
  rfl

/-- The validation loop preserves entry validity and key uniqueness of the
hold-map. -/
theorem checkItems_ok_invariants (s : Store) :
    ∀ (items : List RawItem) (gt : Rat) (ti : Int)
      (prods : List (Int × Product × Int)) (gt' : Rat) (ti' : Int)
      (prods' : List (Int × Product × Int)),
      checkItems s items gt ti prods = Except.ok (gt', ti', prods') →
      (∀ e ∈ prods, ValidEntry s e) → (entryKeys prods).Nodup →
      (∀ e ∈ prods', ValidEntry s e) ∧ (entryKeys prods').Nodup := by
  intro items
  induction items with
  | nil =>
    intro gt ti prods gt' ti' prods' h hv hn
    simp only [checkItems, Except.ok.injEq, Prod.mk.injEq] at h
    obtain ⟨-, -, h3⟩ := h
    subst h3
    exact ⟨hv, hn⟩
  | cons it rest ih =>
    intro gt ti prods gt' ti' prods' h hv hn
    cases hpid : it.product_id with
    | none => simp [checkItems, hpid] at h
    | some pid =>
      cases hqo : it.qty with
      | none => simp [checkItems, hpid, hqo] at h
      | some qty =>
        by_cases hq0 : qty ≤ 0
        · simp [checkItems, hpid, hqo, hq0] at h
        · cases hfp : findProduct s.products pid with
          | none => simp [checkItems, hpid, hqo, hq0, hfp] at h
          | some p =>
            by_cases hst : p.stock < qty
            · simp [checkItems, hpid, hqo, hq0, hfp, hst] at h
            · have h' : checkItems s rest (gt + p.sp * (qty : Rat)) (ti + qty)
                  (upsertProd prods pid p qty) = Except.ok (gt', ti', prods') := by
                simpa [checkItems, hpid, hqo, hq0, hfp, hst] using h
              apply ih _ _ _ _ _ _ h'
              · intro e he
                rcases mem_upsertProd he with hmem | hnew
                · exact hv e hmem
                · subst hnew
                  refine ⟨hfp, ?_, ?_⟩
                  · show (0 : Int) < qty
                    omega
                  · show (qty : Int) ≤ p.stock
                    omega
              · by_cases hk : pid ∈ entryKeys prods
                · rw [entryKeys_upsert_of_mem p qty hk]
                  exact hn
                · rw [entryKeys_upsert_of_not_mem p qty hk]
                  simp [List.nodup_append, hn, hk]

/-- When the payload's parsed product ids are pairwise distinct, the
accumulated totals equal the sums over the final hold-map. -/
theorem checkItems_ok_sums (s : Store) :
    ∀ (items : List RawItem) (gt : Rat) (ti : Int)
      (prods : List (Int × Product × Int)) (gt' : Rat) (ti' : Int)
      (prods' : List (Int × Product × Int)),
      checkItems s items gt ti prods = Except.ok (gt', ti', prods') →
      (pidsOf items).Nodup →
      (∀ k ∈ entryKeys prods, k ∉ pidsOf items) →
      gt' + entrySumSp prods = gt + entrySumSp prods' ∧
      ti' + entrySumQty prods = ti + entrySumQty prods' := by
  intro items
  induction items with
  | nil =>
    intro gt ti prods gt' ti' prods' h _ _
    simp only [checkItems, Except.ok.injEq, Prod.mk.injEq] at h
    obtain ⟨h1, h2, h3⟩ := h
    subst h1; subst h2; subst h3
    exact ⟨rfl, rfl⟩
  | cons it rest ih =>
    intro gt ti prods gt' ti' prods' h hnd hdisj
    cases hpid : it.product_id with
    | none => simp [checkItems, hpid] at h
    | some pid =>
      cases hqo : it.qty with
      | none => simp [checkItems, hpid, hqo] at h
      | some qty =>
        by_cases hq0 : qty ≤ 0
        · simp [checkItems, hpid, hqo, hq0] at h
        · cases hfp : findProduct s.products pid with
          | none => simp [checkItems, hpid, hqo, hq0, hfp] at h
          | some p =>
            by_cases hst : p.stock < qty
            · simp [checkItems, hpid, hqo, hq0, hfp, hst] at h
            · have h' : checkItems s rest (gt + p.sp * (qty : Rat)) (ti + qty)
                  (upsertProd prods pid p qty) = Except.ok (gt', ti', prods') := by
                simpa [checkItems, hpid, hqo, hq0, hfp, hst] using h
              have hpids : pidsOf (it :: rest) = pid :: pidsOf rest := by
                simp [pidsOf, List.filterMap_cons, hpid]
              rw [hpids] at hnd hdisj
              have hpidrest : pid ∉ pidsOf rest := (List.nodup_cons.1 hnd).1
              have hndrest : (pidsOf rest).Nodup := (List.nodup_cons.1 hnd).2
              have hknotin : pid ∉ entryKeys prods := by
                intro hk
                exact (hdisj pid hk) (List.mem_cons_self _ _)
              have hups : upsertProd prods pid p qty = prods ++ [(pid, p, qty)] := by
                unfold upsertProd
                rw [if_neg (by simpa using fun hc => hknotin ((any_key_iff prods pid).1 hc))]
              rw [hups] at h'
              have hdisj' : ∀ k ∈ entryKeys (prods ++ [(pid, p, qty)]), k ∉ pidsOf rest := by
                intro k hk
                have : entryKeys (prods ++ [(pid, p, qty)]) = entryKeys prods ++ [pid] := by
                  unfold entryKeys
                  rw [List.map_append]
                  rfl
                rw [this] at hk
                rcases List.mem_append.1 hk with hk | hk
                · intro hc
                  exact (hdisj k hk) (List.mem_cons_of_mem _ hc)
                · intro hc
                  rw [List.mem_singleton.1 hk] at hc
                  exact hpidrest hc
              obtain ⟨ihg, iht⟩ := ih _ _ _ _ _ _ h' hndrest hdisj'
              have hsumsp : entrySumSp (prods ++ [(pid, p, qty)]) =
                  entrySumSp prods + p.sp * (qty : Rat) := by
                unfold entrySumSp
                rw [List.map_append, List.sum_append]
                simp
              have hsumq : entrySumQty (prods ++ [(pid, p, qty)]) =
                  entrySumQty prods + qty := by
                unfold entrySumQty
                rw [List.map_append, List.sum_append]
                simp
              rw [hsumsp] at ihg
              rw [hsumq] at iht
              constructor
              · linarith
              · omega

/-! ## C1 -/

theorem findOrder_append_fresh {os : List Order} {o : Order} {oid : Int}
    (hold : ∀ o2 ∈ os, o2.id ≠ oid) (h : o.id = oid) :
    findOrder (os ++ [o]) oid = some o := by
  unfold findOrder
  rw [List.find?_append]
  have h1 : os.find? (fun o2 => o2.id == oid) = none :=
    List.find?_eq_none.2 (fun x hx => by simpa using hold x hx)
  rw [h1]
  simp [h]

theorem itemsOfOrder_append_fresh {its new : List OrderItem} {oid : Int}
    (hold : ∀ it ∈ its, it.order_id ≠ oid) (hnew : ∀ it ∈ new, it.order_id = oid) :
    itemsOfOrder (its ++ new) oid = new := by
  unfold itemsOfOrder
  rw [List.filter_append]
  rw [List.filter_eq_nil_iff.2 (fun a ha => by simpa using hold a ha)]
  rw [List.filter_eq_self.2 (fun a ha => by simpa using hnew a ha)]
  rfl

theorem sum_item_totals_map (oid : Int) (prods : List (Int × Product × Int)) :
    ((prods.map (mkOrderItem oid)).map OrderItem.item_total).sum = entrySumSp prods := by
  rw [List.map_map]
  rfl

theorem sum_item_qtys_map (oid : Int) (prods : List (Int × Product × Int)) :
    ((prods.map (mkOrderItem oid)).map OrderItem.qty).sum = entrySumQty prods := by
  rw [List.map_map]
  rfl

/-- C1 (amended): for a successful placement whose request lists pairwise
distinct product ids, the created order's grand_total equals the sum of
item_total over its OrderItems and its total_items equals the sum of their
qty fields.  (With a duplicated product id the accumulated totals count every
payload entry while the hold-map keeps only the last entry per id, so the
identity fails — see the counterexample.) -/
theorem order_totals_match_items (s : Store) (req : PlaceOrderReq) (items : List RawItem)
    (oid : Int) (s' : Store)
    (hit : req.items = some items)
    (hnd : (pidsOf items).Nodup)
    (hfo : ∀ o ∈ s.orders, o.id ≠ s.nextOrderId)
    (hfi : ∀ it ∈ s.orderItems, it.order_id ≠ s.nextOrderId)
    (hok : placeOrder s req = (s', Except.ok oid)) :
    ∃ o, findOrder s'.orders oid = some o ∧
      o.grand_total = sumItemTotals s' oid ∧
      o.total_items = sumItemQtys s' oid := by
  cases hr : req.retailer_id with
  | none => simp [placeOrder, hit, hr] at hok
  | some rid =>
    cases hc : checkItems s items 0 0 [] with
    | error e => simp [placeOrder, hit, hr, hc] at hok
    | ok v =>
      obtain ⟨gt, ti, prods⟩ := v
      simp only [placeOrder, hit, hr, hc, Prod.mk.injEq, Except.ok.injEq] at hok
      obtain ⟨hs', hoid⟩ := hok
      subst hs'
      subst hoid
      obtain ⟨hgt, hti⟩ :=
        checkItems_ok_sums s items 0 0 [] gt ti prods hc hnd (by simp [entryKeys])
      have hgt' : gt = entrySumSp prods := by simpa [entrySumSp] using hgt
      have hti' : ti = entrySumQty prods := by simpa [entrySumQty] using hti
      have hnewid : ∀ it ∈ prods.map (mkOrderItem s.nextOrderId),
          it.order_id = s.nextOrderId := by
        intro it hmem
        rcases List.mem_map.1 hmem with ⟨e, _, hee⟩
        rw [← hee]
        rfl
      have hitems : itemsOfOrder (s.orderItems ++ prods.map (mkOrderItem s.nextOrderId))
          s.nextOrderId = prods.map (mkOrderItem s.nextOrderId) :=
        itemsOfOrder_append_fresh hfi hnewid
      refine ⟨⟨s.nextOrderId, rid, s.now, gt, ti, "pending"⟩, ?_, ?_, ?_⟩
      · exact findOrder_append_fresh hfo rfl
      · show gt = ((itemsOfOrder (s.orderItems ++ prods.map (mkOrderItem s.nextOrderId))
            s.nextOrderId).map OrderItem.item_total).sum
        rw [hitems, sum_item_totals_map]
        exact hgt'
      · show ti = ((itemsOfOrder (s.orderItems ++ prods.map (mkOrderItem s.nextOrderId))
            s.nextOrderId).map OrderItem.qty).sum
        rw [hitems, sum_item_qtys_map]
        exact hti'

/-- C1 counterexample: the same product id listed twice (qty 2 then qty 3)
yields an order with grand_total 5 and total_items 5, accumulated over both
payload entries, while the single OrderItem actually created carries
item_total 3 and qty 3 (the hold-map keeps only the last entry per id). -/
theorem duplicate_pid_breaks_totals :
    (placeOrder store1 reqDup).2 = Except.ok 1 ∧
    ((findOrder (placeOrder store1 reqDup).1.orders 1).map Order.grand_total) = some 5 ∧
    sumItemTotals (placeOrder store1 reqDup).1 1 = 3 ∧
    ((findOrder (placeOrder store1 reqDup).1.orders 1).map Order.total_items) = some 5 ∧
    sumItemQtys (placeOrder store1 reqDup).1 1 = 3 ∧
    (5 : Rat) ≠ 3 ∧ (5 : Int) ≠ 3 := by
  refine ⟨rfl, ?_, ?_, ?_, ?_, by norm_num, by decide⟩
  · norm_num [placeOrder, checkItems, findProduct, findOrder, upsertProd, store1, reqDup, prodA]
  · norm_num [placeOrder, checkItems, findProduct, upsertProd, mkOrderItem, sumItemTotals,
      itemsOfOrder, store1, reqDup, prodA]
  · norm_num [placeOrder, checkItems, findProduct, findOrder, upsertProd, store1, reqDup, prodA]
  · norm_num [placeOrder, checkItems, findProduct, upsertProd, mkOrderItem, sumItemQtys,
      itemsOfOrder, store1, reqDup, prodA]

/-- Witness for C1. -/
theorem order_totals_witness :
    ((findOrder (placeOrder store1 reqOne).1.orders 1).map Order.grand_total).getD 0 =
      sumItemTotals (placeOrder store1 reqOne).1 1 ∧
    ((findOrder (placeOrder store1 reqOne).1.orders 1).map Order.total_items).getD 0 =
      sumItemQtys (placeOrder store1 reqOne).1 1 := by
  obtain ⟨o, h1, h2, h3⟩ := order_totals_match_items store1 reqOne [⟨some 1, some 2⟩] 1
    (placeOrder store1 reqOne).1 rfl (by decide) (by decide) (by decide) rfl
  rw [h1]
  exact ⟨by simpa using h2, by simpa using h3⟩

/-! ## C2 (amended): nonnegativity preservation -/

theorem decStock_ids (ps : List Product) (k q : Int) :
    (decStock ps k q).map Product.id = ps.map Product.id := by
  unfold decStock
  rw [List.map_map]
  apply List.map_congr_left
  intro p _
  by_cases h : p.id = k <;> simp [h]

theorem incStock_ids (ps : List Product) (k q : Int) :
    (incStock ps k q).map Product.id = ps.map Product.id := by
  unfold incStock
  rw [List.map_map]
  apply List.map_congr_left
  intro p _
  by_cases h : p.id = k <;> simp [h]

/-- Nonnegativity survives the stock-decrement loop as long as every hold-map
entry has a distinct key, points at a real row, and stays within its stock. -/
theorem foldDec_nonneg :
    ∀ (prods : List (Int × Product × Int)) (ps : List Product),
      (ps.map Product.id).Nodup →
      (entryKeys prods).Nodup →
      (∀ e ∈ prods, ∃ p ∈ ps, p.id = e.1 ∧ e.2.2 ≤ p.stock) →
      (∀ p ∈ ps, 0 ≤ p.stock) →
      ∀ p ∈ prods.foldl (fun a e => decStock a e.1 e.2.2) ps, 0 ≤ p.stock := by
  intro prods
  induction prods with
  | nil =>
    intro ps _ _ _ h p hp
    exact h p hp
  | cons e rest ih =>
    intro ps hids hkeys hcond hnn
    rw [List.foldl_cons]
    have hkeys' : (entryKeys rest).Nodup ∧ e.1 ∉ entryKeys rest := by
      have h1 := List.nodup_cons.1 hkeys
      exact ⟨h1.2, h1.1⟩
    apply ih (decStock ps e.1 e.2.2)
    · rw [decStock_ids]
      exact hids
    · exact hkeys'.1
    · intro e' he'
      obtain ⟨p, hp, hpid, hle⟩ := hcond e' (List.mem_cons_of_mem _ he')
      have hne : p.id ≠ e.1 := by
        rw [hpid]
        intro hEq
        apply hkeys'.2
        rw [← hEq]
        exact List.mem_map_of_mem _ he'
      have himg : (fun q => if q.id == e.1 then { q with stock := q.stock - e.2.2 } else q) p
          = p := by
        simp [hne]
      refine ⟨p, ?_, hpid, hle⟩
      unfold decStock
      rw [← himg]
      exact List.mem_map_of_mem _ hp
    · intro p' hp'
      unfold decStock at hp'
      rcases List.mem_map.1 hp' with ⟨p, hp, himg⟩
      by_cases h : p.id = e.1
      · obtain ⟨p0, hp0, hp0id, hle0⟩ := hcond e (List.mem_cons_self _ _)
        have hpp0 : p = p0 := List.inj_on_of_nodup_map hids hp hp0 (by rw [h, hp0id])
        rw [← himg]
        simp only [h, beq_self_eq_true, if_true]
        show 0 ≤ p.stock - e.2.2
        rw [hpp0]
        omega
      · rw [← himg]
        have hb : (p.id == e.1) = false := by simpa using h
        simpa [hb] using hnn p hp

/-- Nonnegativity survives the stock-restore loop of `delete_order` because
every restored quantity is itself nonnegative. -/
theorem foldInc_nonneg :
    ∀ (its : List OrderItem) (ps : List Product),
      (∀ it ∈ its, 0 ≤ it.qty) →
      (∀ p ∈ ps, 0 ≤ p.stock) →
      ∀ p ∈ its.foldl
        (fun a it => if hasId a it.product_id then incStock a it.product_id it.qty else a) ps,
        0 ≤ p.stock := by
  intro its
  induction its with
  | nil =>
    intro ps _ h p hp
    exact h p hp
  | cons it rest ih =>
    intro ps hq hnn
    rw [List.foldl_cons]
    apply ih
    · intro x hx
      exact hq x (List.mem_cons_of_mem _ hx)
    · intro p' hp'
      by_cases h : hasId ps it.product_id
      · rw [if_pos h] at hp'
        unfold incStock at hp'
        rcases List.mem_map.1 hp' with ⟨p, hp, himg⟩
        have hq0 : 0 ≤ it.qty := hq it (List.mem_cons_self _ _)
        by_cases hid : p.id = it.product_id
        · rw [← himg]
          simp only [hid, beq_self_eq_true, if_true]
          show 0 ≤ p.stock + it.qty
          have := hnn p hp
          omega
        · rw [← himg]
          have hb : (p.id == it.product_id) = false := by simpa using hid
          simpa [hb] using hnn p hp
      · rw [if_neg h] at hp'
        exact hnn p' hp'

/-- C2 (amended): restock, order placement (successful or failed) and order
deletion all preserve "every product's stock is ≥ 0" (deletion under the
reachable-store invariant that order-item quantities are nonnegative,
placement under primary-key uniqueness of product ids); add-product preserves
it only when the submitted stock value is nonnegative — a negative submitted
stock creates a product with negative stock (see the counterexample). -/
theorem stock_nonneg_preserved (s : Store)
    (hs : ∀ p ∈ s.products, 0 ≤ p.stock)
    (hids : (s.products.map Product.id).Nodup)
    (hq : ∀ it ∈ s.orderItems, 0 ≤ it.qty) :
    (∀ req : AddProductReq, (∀ v, req.stock = some v → 0 ≤ v) →
      ∀ p ∈ (addProduct s req).1.products, 0 ≤ p.stock) ∧
    (∀ req : RestockReq, ∀ p ∈ (updateProductStock s req).1.products, 0 ≤ p.stock) ∧
    (∀ req : PlaceOrderReq, ∀ p ∈ (placeOrder s req).1.products, 0 ≤ p.stock) ∧
    (∀ oid : Int, ∀ p ∈ (deleteOrder s oid).1.products, 0 ≤ p.stock) := by
  refine ⟨?_, ?_, ?_, ?_⟩
  · intro req hreq p hp
    rcases h1 : req.cp with _ | cp
    all_goals rcases h2 : req.sp with _ | sp
    all_goals rcases h3 : req.mrp with _ | mrp
    all_goals rcases h4 : req.stock with _ | v
    all_goals simp only [addProduct, h1, h2, h3, h4] at hp
    all_goals try exact hs p hp
    by_cases hn : req.name = ""
    · rw [if_pos hn] at hp
      exact hs p hp
    · rw [if_neg hn] at hp
      simp only [List.mem_append, List.mem_singleton] at hp
      rcases hp with h | h
      · exact hs p h
      · rw [h]
        exact hreq v h4
  · intro req p hp
    rcases h1 : req.id with _ | pid
    all_goals rcases h2 : req.stock_to_add with _ | sta
    all_goals rcases h3 : req.cp with _ | cp
    all_goals rcases h4 : req.sp with _ | sp
    all_goals rcases h5 : req.mrp with _ | mrp
    all_goals simp only [updateProductStock, h1, h2, h3, h4, h5] at hp
    all_goals try exact hs p hp
    cases hfp : findProduct s.products pid with
    | none =>
      simp only [hfp] at hp
      exact hs p hp
    | some p0 =>
      simp only [hfp] at hp
      unfold setProduct at hp
      rcases List.mem_map.1 hp with ⟨p1, hp1, himg⟩
      by_cases hid : p1.id = pid
      · rw [← himg]
        simp only [hid, beq_self_eq_true, if_true]
        have h0 : 0 ≤ p0.stock := hs p0 (findProduct_eq_some hfp).1
        show 0 ≤ (if 0 < sta then p0.stock + sta else p0.stock)
        by_cases hsta : 0 < sta
        · rw [if_pos hsta]
          omega
        · rw [if_neg hsta]
          omega
      · rw [← himg]
        have hb : (p1.id == pid) = false := by simpa using hid
        simpa [hb] using hs p1 hp1
  · intro req p hp
    cases hi : req.items with
    | none =>
      simp only [placeOrder, hi] at hp
      exact hs p hp
    | some items =>
      cases hr : req.retailer_id with
      | none =>
        simp only [placeOrder, hi, hr] at hp
        exact hs p hp
      | some rid =>
        cases hc : checkItems s items 0 0 [] with
        | error e =>
          simp only [placeOrder, hi, hr, hc] at hp
          exact hs p hp
        | ok v =>
          obtain ⟨gt, ti, prods⟩ := v
          simp only [placeOrder, hi, hr, hc] at hp
          have hinv := checkItems_ok_invariants s items 0 0 [] gt ti prods hc
            (by simp) (by simp [entryKeys])
          refine foldDec_nonneg prods s.products hids hinv.2 ?_ hs p hp
          intro e he
          obtain ⟨hfp, hpos, hle⟩ := hinv.1 e he
          obtain ⟨hmem, hid⟩ := findProduct_eq_some hfp
          exact ⟨e.2.1, hmem, hid, hle⟩
  · intro oid p hp
    cases hfo : findOrder s.orders oid with
    | none =>
      simp only [deleteOrder, hfo] at hp
      exact hs p hp
    | some o =>
      by_cases hst : o.status = "deleted"
      · simp only [deleteOrder, hfo, if_pos hst] at hp
        exact hs p hp
      · simp only [deleteOrder, hfo, if_neg hst] at hp
        refine foldInc_nonneg _ s.products ?_ hs p hp
        intro it hit
        exact hq it (List.mem_filter.1 hit).1

/-- Witness for C2: placing an order for 2 units of product 1 on `store1`
leaves the (single) product with stock 8 ≥ 0. -/
theorem stock_nonneg_witness : 0 ≤ (Product.mk 1 "A" 0 1 0 8).stock :=
  (stock_nonneg_preserved store1 (by decide) (by decide) (by decide)).2.2.1 reqOne
    ⟨1, "A", 0, 1, 0, 8⟩ (by decide)

/-! ## C4: place-then-delete round-trip -/

theorem incDec_elem (p : Product) (k q : Int) :
    (fun r => if r.id == k then { r with stock := r.stock + q } else r)
      ((fun r => if r.id == k then { r with stock := r.stock - q } else r) p) = p := by
  by_cases h : p.id = k
  · have hb : (p.id == k) = true := by simpa using h
    simp only [hb, if_true]
    show ({ p with stock := p.stock - q + q } : Product) = p
    rw [show p.stock - q + q = p.stock by omega]
  · have hb : (p.id == k) = false := by simpa using h
    simp [hb]

theorem incStock_decStock (ps : List Product) (k q : Int) :
    incStock (decStock ps k q) k q = ps := by
  induction ps with
  | nil => rfl
  | cons p rest ih =>
    show (fun r => if r.id == k then { r with stock := r.stock + q } else r)
        ((fun r => if r.id == k then { r with stock := r.stock - q } else r) p) ::
        incStock (decStock rest k q) k q = p :: rest
    rw [incDec_elem, ih]

theorem incDec_comm_elem (p : Product) {k k' : Int} (q q' : Int) (h : k ≠ k') :
    (fun r => if r.id == k then { r with stock := r.stock + q } else r)
      ((fun r => if r.id == k' then { r with stock := r.stock - q' } else r) p) =
    (fun r => if r.id == k' then { r with stock := r.stock - q' } else r)
      ((fun r => if r.id == k then { r with stock := r.stock + q } else r) p) := by
  by_cases h1 : p.id = k
  · have h2 : ¬p.id = k' := by
      rw [h1]
      exact h
    simp [h1, h2, h, Ne.symm h]
  · by_cases h2 : p.id = k'
    · simp [h1, h2, h, Ne.symm h]
    · simp [h1, h2]

theorem incStock_decStock_comm {k k' : Int} (ps : List Product) (q q' : Int) (h : k ≠ k') :
    incStock (decStock ps k' q') k q = decStock (incStock ps k q) k' q' := by
  induction ps with
  | nil => rfl
  | cons p rest ih =>
    show (fun r => if r.id == k then { r with stock := r.stock + q } else r)
        ((fun r => if r.id == k' then { r with stock := r.stock - q' } else r) p) ::
        incStock (decStock rest k' q') k q =
      (fun r => if r.id == k' then { r with stock := r.stock - q' } else r)
        ((fun r => if r.id == k then { r with stock := r.stock + q } else r) p) ::
        decStock (incStock rest k q) k' q'
    rw [incDec_comm_elem p q q' h, ih]

theorem incStock_foldDec (rest : List (Int × Product × Int)) (ps : List Product)
    (k q : Int) (h : k ∉ entryKeys rest) :
    incStock (rest.foldl (fun a e => decStock a e.1 e.2.2) ps) k q =
    rest.foldl (fun a e => decStock a e.1 e.2.2) (incStock ps k q) := by
  induction rest generalizing ps with
  | nil => rfl
  | cons e rest' ih =>
    rw [List.foldl_cons, List.foldl_cons]
    have hk : k ≠ e.1 := by
      intro hc
      apply h
      rw [hc]
      exact List.mem_cons_self _ _
    have h' : k ∉ entryKeys rest' := fun hc => h (List.mem_cons_of_mem _ hc)
    rw [ih (decStock ps e.1 e.2.2) h', incStock_decStock_comm _ _ _ hk]

theorem hasId_decStock (ps : List Product) (k q m : Int) :
    hasId (decStock ps k q) m = hasId ps m := by
  induction ps with
  | nil => rfl
  | cons p rest ih =>
    show (((if p.id == k then { p with stock := p.stock - q } else p).id == m) ||
        hasId (decStock rest k q) m) = ((p.id == m) || hasId rest m)
    rw [ih]
    by_cases h : p.id = k <;> simp [h]

theorem hasId_foldDec (prods : List (Int × Product × Int)) (ps : List Product) (m : Int) :
    hasId (prods.foldl (fun a e => decStock a e.1 e.2.2) ps) m = hasId ps m := by
  induction prods generalizing ps with
  | nil => rfl
  | cons e rest ih =>
    rw [List.foldl_cons, ih, hasId_decStock]

theorem foldl_congr_mem {α β : Type} :
    ∀ (l : List α) (f g : β → α → β) (init : β),
      (∀ e ∈ l, ∀ b, f b e = g b e) → l.foldl f init = l.foldl g init := by
  intro l
  induction l with
  | nil =>
    intro f g init _
    rfl
  | cons e rest ih =>
    intro f g init h
    rw [List.foldl_cons, List.foldl_cons, h e (List.mem_cons_self _ _)]
    exact ih f g _ (fun e' he' b => h e' (List.mem_cons_of_mem _ he') b)

/-- With pairwise-distinct keys, the stock-restore loop over the hold-map
exactly undoes the stock-decrement loop. -/
theorem foldIncG_foldDec_cancel :
    ∀ (prods : List (Int × Product × Int)) (ps : List Product),
      (entryKeys prods).Nodup →
      (∀ e ∈ prods, hasId ps e.1 = true) →
      prods.foldl (fun a e => if hasId a e.1 then incStock a e.1 e.2.2 else a)
        (prods.foldl (fun a e => decStock a e.1 e.2.2) ps) = ps := by
  intro prods
  induction prods with
  | nil =>
    intro ps _ _
    rfl
  | cons e rest ih =>
    intro ps hnd hhas
    rw [List.foldl_cons, List.foldl_cons]
    have hknotin : e.1 ∉ entryKeys rest := (List.nodup_cons.1 hnd).1
    have hguard : hasId (rest.foldl (fun a e => decStock a e.1 e.2.2)
        (decStock ps e.1 e.2.2)) e.1 = true := by
      rw [hasId_foldDec, hasId_decStock]
      exact hhas e (List.mem_cons_self _ _)
    rw [if_pos hguard]
    rw [incStock_foldDec rest _ _ _ hknotin, incStock_decStock]
    exact ih ps (List.nodup_cons.1 hnd).2 (fun e' he' => hhas e' (List.mem_cons_of_mem _ he'))

/-- C4: for every state and every order placement that succeeds (under fresh
order id, as the autoincrementing primary key guarantees), immediately
deleting the resulting order succeeds and restores the product table exactly
to its pre-placement value — every involved product's stock returns to its
prior value, including duplicate-product-id requests. -/
theorem place_then_delete_restores_stock (s s1 : Store) (req : PlaceOrderReq) (oid : Int)
    (hfo : ∀ o ∈ s.orders, o.id ≠ s.nextOrderId)
    (hfi : ∀ it ∈ s.orderItems, it.order_id ≠ s.nextOrderId)
    (hok : placeOrder s req = (s1, Except.ok oid)) :
    ∃ s2, deleteOrder s1 oid = (s2, Except.ok ()) ∧ s2.products = s.products := by
  cases hi : req.items with
  | none => simp [placeOrder, hi] at hok
  | some items =>
    cases hr : req.retailer_id with
    | none => simp [placeOrder, hi, hr] at hok
    | some rid =>
      cases hc : checkItems s items 0 0 [] with
      | error e => simp [placeOrder, hi, hr, hc] at hok
      | ok v =>
        obtain ⟨gt, ti, prods⟩ := v
        simp only [placeOrder, hi, hr, hc, Prod.mk.injEq, Except.ok.injEq] at hok
        obtain ⟨hs1, hoid⟩ := hok
        subst hoid
        have hinv := checkItems_ok_invariants s items 0 0 [] gt ti prods hc
          (by simp) (by simp [entryKeys])
        have hfind : findOrder
            (s.orders ++ [⟨s.nextOrderId, rid, s.now, gt, ti, "pending"⟩]) s.nextOrderId =
            some ⟨s.nextOrderId, rid, s.now, gt, ti, "pending"⟩ :=
          findOrder_append_fresh hfo rfl
        have hnewid : ∀ it ∈ prods.map (mkOrderItem s.nextOrderId),
            it.order_id = s.nextOrderId := by
          intro it hmem
          rcases List.mem_map.1 hmem with ⟨e, _, hee⟩
          rw [← hee]
          rfl
        have hitems : itemsOfOrder (s.orderItems ++ prods.map (mkOrderItem s.nextOrderId))
            s.nextOrderId = prods.map (mkOrderItem s.nextOrderId) :=
          itemsOfOrder_append_fresh hfi hnewid
        have hfun : ∀ e ∈ prods, ∀ b : List Product,
            (if hasId b (mkOrderItem s.nextOrderId e).product_id then
              incStock b (mkOrderItem s.nextOrderId e).product_id
                (mkOrderItem s.nextOrderId e).qty
             else b) =
            (if hasId b e.1 then incStock b e.1 e.2.2 else b) := by
          intro e he b
          obtain ⟨hfp, -, -⟩ := hinv.1 e he
          have hid : e.2.1.id = e.1 := (findProduct_eq_some hfp).2
          show (if hasId b e.2.1.id then incStock b e.2.1.id e.2.2 else b) = _
          rw [hid]
        have hhas : ∀ e ∈ prods, hasId s.products e.1 = true := by
          intro e he
          obtain ⟨hfp, -, -⟩ := hinv.1 e he
          obtain ⟨hmem, hid⟩ := findProduct_eq_some hfp
          unfold hasId
          rw [List.any_eq_true]
          exact ⟨e.2.1, hmem, by simpa using hid⟩
        refine ⟨(deleteOrder s1 s.nextOrderId).1, ?_, ?_⟩
        · rw [← hs1]
          simp only [deleteOrder, hfind]
          rw [if_neg (by decide : ¬(("pending" : String) = "deleted"))]
        · rw [← hs1]
          simp only [deleteOrder, hfind]
          rw [if_neg (by decide : ¬(("pending" : String) = "deleted"))]
          show (itemsOfOrder (s.orderItems ++ prods.map (mkOrderItem s.nextOrderId))
              s.nextOrderId).foldl
              (fun a it => if hasId a it.product_id then incStock a it.product_id it.qty else a)
              (prods.foldl (fun a e => decStock a e.1 e.2.2) s.products) = s.products
          rw [hitems, List.foldl_map]
          refine Eq.trans (foldl_congr_mem prods
            (fun x y => if hasId x (mkOrderItem s.nextOrderId y).product_id then
              incStock x (mkOrderItem s.nextOrderId y).product_id
                (mkOrderItem s.nextOrderId y).qty
             else x)
            (fun a e => if hasId a e.1 then incStock a e.1 e.2.2 else a)
            (prods.foldl (fun a e => decStock a e.1 e.2.2) s.products)
            hfun) ?_
          exact foldIncG_foldDec_cancel prods s.products hinv.2 hhas

/-- Witness for C4: placing the duplicate-id order on `store1` and deleting
the created order (id 1) brings the product table back to its original value. -/
theorem place_then_delete_witness :
    (deleteOrder (placeOrder store1 reqDup).1 1).1.products = store1.products := by
  obtain ⟨s2, h1, h2⟩ := place_then_delete_restores_stock store1
    (placeOrder store1 reqDup).1 reqDup 1 (by decide) (by decide) rfl
  rw [h1]
  exact h2

/-! ## C9 -/

/-- C9: the active order listing contains exactly the orders whose status is
not "deleted", sorted by date descending, while the export emits one row per
OrderItem for every order regardless of status — each row carrying the
order's status, so deleted orders appear there. -/
theorem active_listing_and_export (s : Store) :
    (∀ o, o ∈ activeOrders s ↔ o ∈ s.orders ∧ o.status ≠ "deleted") ∧
    (activeOrders s).Sorted dateGe ∧
    (∀ o ∈ s.orders, ∀ it ∈ s.orderItems, it.order_id = o.id →
      csvRowOf s o it ∈ exportRows s ∧ (csvRowOf s o it).status = o.status) := by
  refine ⟨?_, ?_, ?_⟩
  · intro o
    unfold activeOrders
    rw [List.mem_insertionSort, List.mem_filter]
    simp [bne_iff_ne]
  · exact List.sorted_insertionSort dateGe _
  · intro o ho it hit hoid
    refine ⟨?_, rfl⟩
    unfold exportRows
    rw [List.mem_flatMap]
    refine ⟨o, ?_, ?_⟩
    · rw [List.mem_insertionSort]
      exact ho
    · refine List.mem_map_of_mem _ ?_
      unfold itemsOfOrder
      rw [List.mem_filter]
      exact ⟨hit, by simpa using hoid⟩

def storeMix : Store := ⟨[prodA], [retR],
  [⟨1, 1, 5, 3, 3, "deleted"⟩, ⟨2, 1, 7, 2, 2, "pending"⟩],
  [⟨1, 1, "A", 0, 1, 0, 3, 3⟩, ⟨2, 1, "A", 0, 1, 0, 2, 2⟩], 2, 3, 8⟩

/-- Witness for C9 on a store holding one deleted and one pending order. -/
theorem active_listing_and_export_witness :
    ((⟨2, 1, 7, 2, 2, "pending"⟩ : Order) ∈ activeOrders storeMix ∧
      (⟨1, 1, 5, 3, 3, "deleted"⟩ : Order) ∉ activeOrders storeMix) ∧
    (activeOrders storeMix).Sorted dateGe ∧
    csvRowOf storeMix ⟨1, 1, 5, 3, 3, "deleted"⟩ ⟨1, 1, "A", 0, 1, 0, 3, 3⟩ ∈
      exportRows storeMix := by
  refine ⟨⟨?_, ?_⟩, (active_listing_and_export storeMix).2.1, ?_⟩
  · exact ((active_listing_and_export storeMix).1 _).2 ⟨by decide, by decide⟩
  · intro hmem
    have hin := ((active_listing_and_export storeMix).1 _).1 hmem
    exact hin.2 rfl
  · exact ((active_listing_and_export storeMix).2.2 _ (by decide) _ (by decide) rfl).1
